import Mathlib

/-!
Verification development for the project enrichment and ranking pipeline of
`best_of` (files `best_of/projects_collection.py` and `best_of/license.py`).

The Python code stores project records as `addict.Dict` objects, whose fields
are "falsy" when absent, when numeric zero, or when an empty string.  We embed
records as Lean structures with `Option` fields and make the truthiness tests
explicit (`tStr`, `tNat`, `tBool` below): `none` models an absent key, while
`some 0` / `some ""` model present-but-falsy values, which the code treats
exactly like absent ones in its `if not ...:` guards.

External library calls that are not part of this repository are parameters of
the embedding: `dateutil.parser.parse` becomes `ExtFns.parseDate`,
`urllib.parse.urlparse(...).path` becomes `ExtFns.pathOf`, and
`utils.process_description` becomes `ExtFns.procDescription` (the module
`best_of/utils.py` is not part of the sources at hand).  Logging is modelled
by returning a list of log entries alongside the updated record.
-/

/-- Log levels used by the pipeline (`log.info` and `log.warning`). -/
inductive LogLevel where
  | info : LogLevel
  | warning : LogLevel
deriving DecidableEq, Repr

/-- One log entry: a level and a message. -/
def LogEntry : Type := LogLevel × String

/-- Python truthiness of an optional string: absent and `""` are falsy. -/
def tStr (o : Option String) : Prop := o.getD "" ≠ ""

instance (o : Option String) : Decidable (tStr o) := by
  unfold tStr; infer_instance

/-- Python truthiness of an optional natural number: absent and `0` are falsy. -/
def tNat (o : Option Nat) : Prop := o.getD 0 ≠ 0

instance (o : Option Nat) : Decidable (tNat o) := by
  unfold tNat; infer_instance

/-- Python truthiness of an optional boolean: only `some true` is truthy. -/
def tBool (o : Option Bool) : Prop := o = some true

instance (o : Option Bool) : Decidable (tBool o) := by
  unfold tBool; infer_instance

/-- The canonical project record (`project_info` in the Python code).  Every
field is optional; `none` models a key that is not present in the
`addict.Dict`.  Timestamps are modelled as integers on an abstract timeline
(the code only compares them and takes month differences).  The Python field
`show` is named `show_flag` here because `show` is a Lean keyword. -/
structure ProjectInfo where
  name : Option String := none
  homepage : Option String := none
  description : Option String := none
  license : Option String := none
  category : Option String := none
  github_id : Option String := none
  github_url : Option String := none
  pypi_id : Option String := none
  pypi_url : Option String := none
  npm_id : Option String := none
  npm_url : Option String := none
  conda_id : Option String := none
  conda_url : Option String := none
  dockerhub_id : Option String := none
  dockerhub_url : Option String := none
  star_count : Option Nat := none
  fork_count : Option Nat := none
  contributor_count : Option Nat := none
  open_issue_count : Option Nat := none
  sourcerank : Option Nat := none
  sourcerank_placing : Option Nat := none
  created_at : Option Int := none
  updated_at : Option Int := none
  show_flag : Option Bool := none
deriving DecidableEq, Repr, Inhabited

/-- A libraries.io package result (`package_info` in
`update_package_via_libio`).  Raw timestamps are strings still to be parsed;
`versions` keeps only the `published_at` component of each entry, which is the
only component the code reads. -/
structure PackageInfo where
  name : Option String := none
  homepage : Option String := none
  repository_url : Option String := none
  package_manager_url : Option String := none
  normalized_licenses : List String := []
  latest_release_published_at : Option String := none
  versions : List String := []
  stars : Option Nat := none
  forks : Option Nat := none
  rank : Option Nat := none
  description : Option String := none
deriving DecidableEq, Repr, Inhabited

/-- A GitHub GraphQL result (`github_info` in `update_via_github_api`), after
JSON decoding.  Nested objects such as `stargazers { totalCount }` are
flattened to their single numeric component: `github_info.stargazers and
github_info.stargazers.totalCount` is truthy exactly when the flattened
optional number is truthy. -/
structure GithubApiInfo where
  url : Option String := none
  description : Option String := none
  licenseInfo_spdxId : Option String := none
  createdAt : Option String := none
  pushedAt : Option String := none
  forks_totalCount : Option Nat := none
  issues_totalCount : Option Nat := none
  stargazers_totalCount : Option Nat := none
deriving DecidableEq, Repr, Inhabited

/-- A libraries.io repository result (`github_info` in
`update_repo_via_libio`). -/
structure LibioRepoInfo where
  license : Option String := none
  created_at : Option String := none
  pushed_at : Option String := none
  rank : Option Nat := none
  forks_count : Option Nat := none
  contributions_count : Option Nat := none
  open_issues_count : Option Nat := none
  stargazers_count : Option Nat := none
  description : Option String := none
deriving DecidableEq, Repr, Inhabited

/-- External (non-repository) helpers used by the merge code:
`parseDate` models `dateutil.parser.parse` (`none` = raised an exception),
`pathOf` models `urllib.parse.urlparse(...).path`, and `procDescription`
models `utils.process_description` (`""` = falsy result). -/
structure ExtFns where
  parseDate : String → Option Int
  pathOf : String → String
  procDescription : String → String

/-- Python `str.lower()` on a string, written over the character list so that
it reduces in the kernel (ASCII lowering, which covers every string the
pipeline compares case-insensitively). -/
def str_lower (s : String) : String := (s.toList.map Char.toLower).asString

/-- Python `str.strip("/")`: remove leading and trailing slash characters. -/
def strip_slashes (s : String) : String :=
  ((s.toList.dropWhile (· = '/')).reverse.dropWhile (· = '/')).reverse.asString

/-- The homepage block of `update_package_via_libio` (lines 29-35): if the
record has no homepage, take the first of `homepage`, `repository_url`,
`package_manager_url` that is truthy and not the string "unknown". -/
def upl_homepage_step (h : Option String) (pkg : PackageInfo) : Option String :=
  if tStr h then h
  else if tStr pkg.homepage ∧ str_lower (pkg.homepage.getD "") ≠ "unknown" then pkg.homepage
  else if tStr pkg.repository_url ∧ str_lower (pkg.repository_url.getD "") ≠ "unknown" then
    pkg.repository_url
  else if tStr pkg.package_manager_url ∧ str_lower (pkg.package_manager_url.getD "") ≠ "unknown" then
    pkg.package_manager_url
  else h

/-- The name block of `update_package_via_libio` (lines 37-38). -/
def upl_name_step (n : Option String) (pkg : PackageInfo) : Option String :=
  if ¬ tStr n ∧ tStr pkg.name then pkg.name else n

/-- The github-id block of `update_package_via_libio` (lines 40-44): derive
`github_id` (and `github_url`) from a repository URL that mentions "github"
and has a non-empty URL path. -/
def upl_github_step (ext : ExtFns) (gid gurl : Option String) (pkg : PackageInfo) :
    Option String × Option String :=
  if ¬ tStr gid ∧ tStr pkg.repository_url then
    if "github".toList <:+: (pkg.repository_url.getD "").toList ∧
        ext.pathOf (pkg.repository_url.getD "") ≠ "" then
      (some (strip_slashes (ext.pathOf (pkg.repository_url.getD ""))), pkg.repository_url)
    else (gid, gurl)
  else (gid, gurl)

/-- The license block of `update_package_via_libio` (lines 46-54): take the
first normalized license; a value of "other" (case-insensitive) is reset to
`None`; more than one license produces an info log. -/
def upl_license_step (lic : Option String) (pkg : PackageInfo) :
    Option String × List LogEntry :=
  if ¬ tStr lic ∧ pkg.normalized_licenses ≠ [] then
    let logs : List LogEntry :=
      if 1 < pkg.normalized_licenses.length then
        [(LogLevel.info, "Package " ++ pkg.name.getD "" ++ "has more than one license.")]
      else []
    let l0 := pkg.normalized_licenses.headD ""
    (if str_lower l0 = "other" then none else some l0, logs)
  else (lic, [])

/-- Keep the latest of the current and an incoming timestamp (the
`if not updated_at / elif updated_at < incoming` pattern). -/
def merge_latest (u : Option Int) (d : Int) : Option Int :=
  match u with
  | none => some d
  | some c => if c < d then some d else some c

/-- Keep the earliest of the current and an incoming timestamp (the
`if not created_at / elif created_at > incoming` pattern). -/
def merge_earliest (u : Option Int) (d : Int) : Option Int :=
  match u with
  | none => some d
  | some c => if c > d then some d else some c

/-- A guarded "latest" timestamp merge (lines 56-66 and the analogous blocks
of the other update functions): if the raw value is truthy, try to parse it;
on success merge, on failure keep the field and log a warning. -/
def merge_latest_raw (ext : ExtFns) (u : Option Int) (raw : Option String) :
    Option Int × List LogEntry :=
  if tStr raw then
    match ext.parseDate (raw.getD "") with
    | some d => (merge_latest u d, [])
    | none => (u, [(LogLevel.warning, "Failed to parse timestamp: " ++ raw.getD "")])
  else (u, [])

/-- A guarded "earliest" timestamp merge (`created_at` blocks). -/
def merge_earliest_raw (ext : ExtFns) (u : Option Int) (raw : Option String) :
    Option Int × List LogEntry :=
  if tStr raw then
    match ext.parseDate (raw.getD "") with
    | some d => (merge_earliest u d, [])
    | none => (u, [(LogLevel.warning, "Failed to parse timestamp: " ++ raw.getD "")])
  else (u, [])

/-- The versions block of `update_package_via_libio` (lines 68-78): if the
versions list is non-empty, parse `versions[0].published_at`; the guard is on
the list, not on the string, so an unparsable first entry logs a warning. -/
def upl_versions_step (ext : ExtFns) (u : Option Int) (vs : List String) :
    Option Int × List LogEntry :=
  match vs with
  | [] => (u, [])
  | v :: _ =>
    match ext.parseDate v with
    | some d => (merge_latest u d, [])
    | none => (u, [(LogLevel.warning, "Failed to parse timestamp: " ++ v)])

/-- The shared numeric-metric merge pattern (stars, forks, rank, contributor,
open-issue blocks): if the incoming value is truthy, set the field when the
current value is falsy, else keep the maximum. -/
def bump_metric (cur incoming : Option Nat) : Option Nat :=
  if tNat incoming then
    if ¬ tNat cur then incoming
    else if cur.getD 0 < incoming.getD 0 then incoming
    else cur
  else cur

/-- Minimum length a description must have (`MIN_PROJECT_DESC_LENGTH`). -/
def MIN_PROJECT_DESC_LENGTH : Nat := 10

/-- The description block shared by all update functions: if the current
description is falsy or too short and the incoming one is truthy, process the
incoming description and take the result when it is truthy. -/
def merge_description (ext : ExtFns) (d incoming : Option String) : Option String :=
  if (¬ tStr d ∨ (d.getD "").length < MIN_PROJECT_DESC_LENGTH) ∧ tStr incoming then
    let r := ext.procDescription (incoming.getD "")
    if r ≠ "" then some r else d
  else d

/-- Embedding of `update_package_via_libio` (lines 25-107).  The guard
`if not project_info or not package_info` tests `addict.Dict` truthiness,
which is emptiness of the underlying dict; an entirely-absent record is
modelled by `default`.  Returns the updated record and the emitted log
entries. -/
def update_package_via_libio (ext : ExtFns) (project_info : ProjectInfo)
    (package_info : PackageInfo) : ProjectInfo × List LogEntry :=
  if project_info = default ∨ package_info = default then (project_info, []) else
  let homepage := upl_homepage_step project_info.homepage package_info
  let name := upl_name_step project_info.name package_info
  let gidurl := upl_github_step ext project_info.github_id project_info.github_url package_info
  let lic := upl_license_step project_info.license package_info
  let u1 := merge_latest_raw ext project_info.updated_at package_info.latest_release_published_at
  let u2 := upl_versions_step ext u1.1 package_info.versions
  let star_count := bump_metric project_info.star_count package_info.stars
  let fork_count := bump_metric project_info.fork_count package_info.forks
  let sourcerank := bump_metric project_info.sourcerank package_info.rank
  let description := merge_description ext project_info.description package_info.description
  ({ project_info with
      homepage := homepage
      name := name
      github_id := gidurl.1
      github_url := gidurl.2
      license := lic.1
      updated_at := u2.1
      star_count := star_count
      fork_count := fork_count
      sourcerank := sourcerank
      description := description },
   lic.2 ++ u1.2 ++ u2.2)

/-- Embedding of the merge part of `update_via_github_api` (lines 297-359),
given a successfully fetched and decoded GraphQL result.  The fetch itself
(lines 218-295) is network I/O outside this embedding; a failed fetch returns
before any merge, i.e. leaves the record unchanged. -/
def update_via_github_api_merge (ext : ExtFns) (project_info : ProjectInfo)
    (github_info : GithubApiInfo) : ProjectInfo × List LogEntry :=
  let github_url :=
    if ¬ tStr project_info.github_url ∧ tStr github_info.url then github_info.url
    else project_info.github_url
  let homepage :=
    if ¬ tStr project_info.homepage then github_url else project_info.homepage
  let license :=
    if ¬ tStr project_info.license ∧ tStr github_info.licenseInfo_spdxId ∧
        str_lower (github_info.licenseInfo_spdxId.getD "") ≠ "noassertion" then
      github_info.licenseInfo_spdxId
    else project_info.license
  let c1 := merge_earliest_raw ext project_info.created_at github_info.createdAt
  let u1 := merge_latest_raw ext project_info.updated_at github_info.pushedAt
  let fork_count := bump_metric project_info.fork_count github_info.forks_totalCount
  let open_issue_count := bump_metric project_info.open_issue_count github_info.issues_totalCount
  let star_count := bump_metric project_info.star_count github_info.stargazers_totalCount
  let description := merge_description ext project_info.description github_info.description
  ({ project_info with
      github_url := github_url
      homepage := homepage
      license := license
      created_at := c1.1
      updated_at := u1.1
      fork_count := fork_count
      open_issue_count := open_issue_count
      star_count := star_count
      description := description },
   c1.2 ++ u1.2)

/-- Embedding of the merge part of `update_repo_via_libio` (lines 384-461),
given a successfully fetched repository result.  The guards and lookup of
lines 362-382 are network I/O outside this embedding. -/
def update_repo_via_libio_merge (ext : ExtFns) (project_info : ProjectInfo)
    (github_info : LibioRepoInfo) : ProjectInfo × List LogEntry :=
  let github_url :=
    if ¬ tStr project_info.github_url then
      some ("https://github.com/" ++ project_info.github_id.getD "")
    else project_info.github_url
  let homepage :=
    if ¬ tStr project_info.homepage then github_url else project_info.homepage
  let license :=
    if ¬ tStr project_info.license ∧ tStr github_info.license ∧
        str_lower (github_info.license.getD "") ≠ "other" then
      github_info.license
    else project_info.license
  let c1 := merge_earliest_raw ext project_info.created_at github_info.created_at
  let u1 := merge_latest_raw ext project_info.updated_at github_info.pushed_at
  let sourcerank := bump_metric project_info.sourcerank github_info.rank
  let fork_count := bump_metric project_info.fork_count github_info.forks_count
  let contributor_count :=
    bump_metric project_info.contributor_count github_info.contributions_count
  let open_issue_count := bump_metric project_info.open_issue_count github_info.open_issues_count
  let star_count := bump_metric project_info.star_count github_info.stargazers_count
  let description := merge_description ext project_info.description github_info.description
  ({ project_info with
      github_url := github_url
      homepage := homepage
      license := license
      created_at := c1.1
      updated_at := u1.1
      sourcerank := sourcerank
      fork_count := fork_count
      contributor_count := contributor_count
      open_issue_count := open_issue_count
      star_count := star_count
      description := description },
   c1.2 ++ u1.2)

/-- Modelled from the spec: `utils.simplify_str` (module `best_of/utils.py`
is not among the sources) performs a "case/punctuation-insensitive
simplification" of a string; we lowercase and keep only alphanumeric
characters. -/
def simplify_str (s : String) : String :=
  ((str_lower s).toList.filter Char.isAlphanum).asString

/-- One entry of the static license table of `best_of/license.py`. -/
structure LicenseEntry where
  name : String
  spdx_id : String
  keywords : List String := []
  warning : Bool
deriving DecidableEq, Repr

/-- The static license table `licenses` of `best_of/license.py` (URL fields
are never read by the pipeline and are omitted). -/
def licenses : List LicenseEntry :=
  [ { name := "MIT", spdx_id := "MIT", warning := false },
    { name := "Apache-2.0", spdx_id := "Apache-2.0",
      keywords := ["apache-2", "apache-license-2.0"], warning := false },
    { name := "ISC", spdx_id := "ISC", warning := false },
    { name := "BSD-3-Clause", spdx_id := "BSD-3-Clause", keywords := ["bsd-3"], warning := false },
    { name := "GPL-3.0", spdx_id := "GPL-3.0", keywords := ["gpl-3"], warning := true },
    { name := "GPL-2.0", spdx_id := "GPL-2.0", keywords := ["gpl-2"], warning := true },
    { name := "MPL-2.0", spdx_id := "MPL-2.0", keywords := ["mpl-2"], warning := false },
    { name := "BSD-2-Clause", spdx_id := "BSD-2-Clause",
      keywords := ["bsd-2", "freebsd"], warning := false },
    { name := "LGPL-3.0", spdx_id := "LGPL-3.0", keywords := ["lgpl-3"], warning := true },
    { name := "AGPL-3.0", spdx_id := "AGPL-3.0", keywords := ["agpl-3"], warning := true },
    { name := "Unlicense", spdx_id := "Unlicense", warning := false } ]

/-- The key/value pairs inserted into `licenses_map` by `get_license`, in
insertion order (simplified name, simplified SPDX id, then each simplified
keyword, per table entry). -/
def licenses_map_entries : List (String × LicenseEntry) :=
  licenses.foldl
    (fun acc l =>
      acc ++ [(simplify_str l.name, l), (simplify_str l.spdx_id, l)] ++
        l.keywords.map (fun k => (simplify_str k, l)))
    []

/-- Embedding of `get_license` of `best_of/license.py`: look the simplified
query up in the license map.  A Python dict keeps the last write per key, so
the lookup takes the last matching insertion. -/
def get_license (query : String) : Option LicenseEntry :=
  (licenses_map_entries.reverse.find? (fun e => e.1 = simplify_str query)).map (·.2)

/-- The user-supplied configuration before defaulting: `none` models a key
that is absent from the YAML configuration map. -/
structure InputConfig where
  project_inactive_months : Option Nat := none
  project_dead_months : Option Nat := none
  project_new_months : Option Nat := none
  min_sourcerank : Option Nat := none
  min_stars : Option Nat := none
  require_license : Option Bool := none
  require_pypi : Option Bool := none
  require_github : Option Bool := none
  require_npm : Option Bool := none
  require_conda : Option Bool := none
  require_dockerhub : Option Bool := none
  markdown_output_file : Option String := none
  generate_badges : Option Bool := none
  generate_install_hints : Option Bool := none
  generate_toc : Option Bool := none
  generate_link_shortcuts : Option Bool := none
  generate_legend : Option Bool := none
  sort_by : Option String := none
  allowed_licenses : Option (List String) := none
deriving DecidableEq, Repr, Inhabited

/-- The resolved configuration produced by `prepare_configuration`.  The key
`require_dockerhub` has no default in `prepare_configuration`; an absent key
is falsy in `addict`, so it resolves to `false` here. -/
structure Configuration where
  project_inactive_months : Nat
  project_dead_months : Nat
  project_new_months : Nat
  min_sourcerank : Nat
  min_stars : Nat
  require_license : Bool
  require_pypi : Bool
  require_github : Bool
  require_npm : Bool
  require_conda : Bool
  require_dockerhub : Bool
  markdown_output_file : String
  generate_badges : Bool
  generate_install_hints : Bool
  generate_toc : Bool
  generate_link_shortcuts : Bool
  generate_legend : Bool
  sort_by : String
  allowed_licenses : List String
deriving DecidableEq, Repr

/-- Embedding of `prepare_configuration` (lines 556-616): fill every missing
key with its documented default; `allowed_licenses` defaults to the SPDX ids
of the static license table. -/
def prepare_configuration (config : InputConfig) : Configuration :=
  { project_inactive_months := config.project_inactive_months.getD 6
    project_dead_months := config.project_dead_months.getD 12
    project_new_months := config.project_new_months.getD 6
    min_sourcerank := config.min_sourcerank.getD 5
    min_stars := config.min_stars.getD 100
    require_license := config.require_license.getD true
    require_pypi := config.require_pypi.getD false
    require_github := config.require_github.getD false
    require_npm := config.require_npm.getD false
    require_conda := config.require_conda.getD false
    require_dockerhub := config.require_dockerhub.getD false
    markdown_output_file := config.markdown_output_file.getD "README.md"
    generate_badges := config.generate_badges.getD false
    generate_install_hints := config.generate_install_hints.getD true
    generate_toc := config.generate_toc.getD true
    generate_link_shortcuts := config.generate_link_shortcuts.getD false
    generate_legend := config.generate_legend.getD true
    sort_by := config.sort_by.getD "sourcerank"
    allowed_licenses := config.allowed_licenses.getD (licenses.map (·.spdx_id)) }

/-- Modelled from the spec: `utils.diff_month` (module `best_of/utils.py` is
not among the sources) returns the number of whole months between two
timestamps; our abstract timeline counts months directly, so the difference
of the two values. -/
def diff_month (later earlier : Int) : Int := later - earlier

/-- The normalized allow-list built by `apply_filters` (lines 685-691): the
simplified configured licenses plus, for each configured license known to the
license table, its simplified SPDX id. -/
def normalized_allowed_licenses (cfg : Configuration) : List String :=
  cfg.allowed_licenses.map simplify_str ++
    cfg.allowed_licenses.filterMap (fun l => (get_license l).map (fun m => simplify_str m.spdx_id))

/-- The normalized project license compared against the allow-list
(lines 678-683): the simplified SPDX id when the license is known to the
table, else the simplified raw license string. -/
def normalized_project_license (lic : String) : String :=
  match get_license lic with
  | some m => simplify_str m.spdx_id
  | none => simplify_str lic

/-- Embedding of `apply_filters` (lines 640-701).  `now` stands for
`datetime.now()`.  The function starts from `show = True` and each condition
that fires overwrites it with `False`. -/
def apply_filters (now : Int) (project_info : ProjectInfo) (configuration : Configuration) :
    ProjectInfo :=
  let s0 := true
  let s1 :=
    if ¬ tStr project_info.name ∨ ¬ tStr project_info.homepage ∨
        ¬ tStr project_info.description ∨
        (project_info.description.getD "").length < MIN_PROJECT_DESC_LENGTH then false else s0
  let s2 :=
    if configuration.min_sourcerank ≠ 0 ∧ tNat project_info.sourcerank ∧
        project_info.sourcerank.getD 0 < configuration.min_sourcerank then false else s1
  let s3 :=
    if configuration.min_stars ≠ 0 ∧ tNat project_info.star_count ∧
        project_info.star_count.getD 0 < configuration.min_stars then false else s2
  let s4 := if ¬ tStr project_info.license ∧ configuration.require_license then false else s3
  let s5 := if configuration.require_pypi ∧ ¬ tStr project_info.pypi_url then false else s4
  let s6 := if configuration.require_github ∧ ¬ tStr project_info.github_url then false else s5
  let s7 := if configuration.require_npm ∧ ¬ tStr project_info.npm_url then false else s6
  let s8 := if configuration.require_conda ∧ ¬ tStr project_info.conda_url then false else s7
  let s9 :=
    if configuration.require_dockerhub ∧ ¬ tStr project_info.dockerhub_url then false else s8
  let s10 :=
    if configuration.allowed_licenses ≠ [] ∧ tStr project_info.license ∧
        ¬ normalized_project_license (project_info.license.getD "") ∈
          normalized_allowed_licenses configuration then false else s9
  let s11 :=
    if project_info.updated_at.isSome ∧ configuration.project_dead_months ≠ 0 ∧
        (configuration.project_dead_months : Int) <
          diff_month now (project_info.updated_at.getD 0) then false else s10
  { project_info with show_flag := some s11 }

/-- Insertion into an ascending-sorted list of naturals. -/
def insert_sorted (x : Nat) : List Nat → List Nat
  | [] => [x]
  | y :: ys => if x ≤ y then x :: y :: ys else y :: insert_sorted x ys

/-- Insertion sort, ascending. -/
def sort_asc (xs : List Nat) : List Nat := xs.foldr insert_sorted []

/-- Linear-interpolation percentile as computed by `np.percentile` with the
default "linear" interpolation: on the sorted values `ys` (ascending), the
`q`-th percentile sits at fractional position `q/100 * (n-1)` and is
interpolated between the two neighbouring values.  `np.percentile` sorts its
input internally, so the descending `np.sort(...)[::-1]` the code passes is
irrelevant to the result.  The code only calls this with the integer
percentiles 90 and 60, so the fractional position `q/100 * (n-1)` is written
here as Euclidean quotient and remainder of `q * (n-1)` by `100`, which is
the same number. -/
def percentile_linear (xs : List Nat) (q : Nat) : ℚ :=
  let ys := sort_asc xs
  let n := ys.length
  if n = 0 then 0 else
  let posn := q * (n - 1)
  let i := posn / 100
  let frac : ℚ := ((posn % 100 : Nat) : ℚ) / 100
  let lo : ℚ := (ys.getD i 0 : ℚ)
  let hi : ℚ := (ys.getD (min (i + 1) (n - 1)) 0 : ℚ)
  lo + frac * (hi - lo)

/-- The per-category rank distribution collected by the first loop of
`calc_sourcerank_placing` (lines 472-480): the ranks of the projects whose
category and sourcerank are both truthy and whose category equals `c`. -/
def category_ranks (projects : List ProjectInfo) (c : String) : List Nat :=
  projects.filterMap (fun p =>
    if tStr p.category ∧ tNat p.sourcerank ∧ p.category.getD "" = c then p.sourcerank else none)

/-- The placing assigned to one project by the second loop of
`calc_sourcerank_placing` (lines 483-502), given the whole project list. -/
def place_project (projects : List ProjectInfo) (p : ProjectInfo) : ProjectInfo :=
  if tNat p.sourcerank ∧ tStr p.category then
    let ranks := category_ranks projects (p.category.getD "")
    if ranks = [] then p
    else
      let placing_1 := percentile_linear ranks 90
      let placing_2 := percentile_linear ranks 60
      let tier : Nat :=
        if placing_1 ≤ (p.sourcerank.getD 0 : ℚ) then 1
        else if placing_2 ≤ (p.sourcerank.getD 0 : ℚ) then 2
        else 3
      { p with sourcerank_placing := some tier }
  else p

/-- Embedding of `calc_sourcerank_placing` (lines 469-502). -/
def calc_sourcerank_placing (projects : List ProjectInfo) : List ProjectInfo :=
  projects.map (place_project projects)

/-- A category bucket: the visible `projects` list and the
`hidden_projects` list. -/
structure Bucket where
  projects : List ProjectInfo := []
  hidden_projects : List ProjectInfo := []
deriving DecidableEq, Repr, Inhabited

/-- Eligibility guard of `categorize_projects` (lines 509-520): a project
must have a truthy name, a truthy homepage and a description of at least the
minimum length. -/
def categorize_eligible (p : ProjectInfo) : Prop :=
  tStr p.name ∧ tStr p.homepage ∧ tStr p.description ∧
    ¬ (p.description.getD "").length < MIN_PROJECT_DESC_LENGTH

instance (p : ProjectInfo) : Decidable (categorize_eligible p) := by
  unfold categorize_eligible; infer_instance

/-- Embedding of `categorize_projects` (lines 505-529).  The category map is
modelled as a total function from category ids to buckets (the code indexes
`categories[project.category]`, which the pipeline guarantees to exist). -/
def categorize_projects (projects : List ProjectInfo) (categories : String → Bucket) :
    String → Bucket :=
  projects.foldl
    (fun cats p =>
      if ¬ categorize_eligible p then cats
      else
        fun c =>
          if c = p.category.getD "" then
            if tBool p.show_flag then
              { cats c with projects := (cats c).projects ++ [p] }
            else
              { cats c with hidden_projects := (cats c).hidden_projects ++ [p] }
          else cats c)
    categories

/-- The default catch-all category id (`DEFAULT_OTHERS_CATEGORY_ID`). -/
def DEFAULT_OTHERS_CATEGORY_ID : String := "others"

/-- Embedding of `update_project_category` (lines 532-540): a falsy category
becomes "others"; a category that is not configured becomes "others" with an
info log. -/
def update_project_category (project_info : ProjectInfo) (categories : List String) :
    ProjectInfo × List LogEntry :=
  let c1 :=
    if ¬ tStr project_info.category then DEFAULT_OTHERS_CATEGORY_ID
    else project_info.category.getD ""
  if c1 ∈ categories then ({ project_info with category := some c1 }, [])
  else
    ({ project_info with category := some DEFAULT_OTHERS_CATEGORY_ID },
     [(LogLevel.info, "Category " ++ c1 ++ " is not listed in the categories configuration.")])

/-- The `project_info.update(project)` call of `collect_projects_info`
(line 729): every key present in the original catalog entry overwrites the
enriched record's value for that key. -/
def dict_update (enriched original : ProjectInfo) : ProjectInfo :=
  { name := original.name.elim enriched.name some
    homepage := original.homepage.elim enriched.homepage some
    description := original.description.elim enriched.description some
    license := original.license.elim enriched.license some
    category := original.category.elim enriched.category some
    github_id := original.github_id.elim enriched.github_id some
    github_url := original.github_url.elim enriched.github_url some
    pypi_id := original.pypi_id.elim enriched.pypi_id some
    pypi_url := original.pypi_url.elim enriched.pypi_url some
    npm_id := original.npm_id.elim enriched.npm_id some
    npm_url := original.npm_url.elim enriched.npm_url some
    conda_id := original.conda_id.elim enriched.conda_id some
    conda_url := original.conda_url.elim enriched.conda_url some
    dockerhub_id := original.dockerhub_id.elim enriched.dockerhub_id some
    dockerhub_url := original.dockerhub_url.elim enriched.dockerhub_url some
    star_count := original.star_count.elim enriched.star_count some
    fork_count := original.fork_count.elim enriched.fork_count some
    contributor_count := original.contributor_count.elim enriched.contributor_count some
    open_issue_count := original.open_issue_count.elim enriched.open_issue_count some
    sourcerank := original.sourcerank.elim enriched.sourcerank some
    sourcerank_placing := original.sourcerank_placing.elim enriched.sourcerank_placing some
    created_at := original.created_at.elim enriched.created_at some
    updated_at := original.updated_at.elim enriched.updated_at some
    show_flag := original.show_flag.elim enriched.show_flag some }

/-- The per-record body of the `collect_projects_info` loop (lines 708-734),
with the enrichment (`update_via_github` ... `update_via_dockerhub`)
abstracted into a single function `enrich`, which covers an arbitrary
sequence of adapter results: copy `created_at` into a missing `updated_at`,
apply the filters, replay the explicit catalog entry over the enriched
record, and validate the category. -/
def process_record (enrich : ProjectInfo → ProjectInfo) (now : Int) (cfg : Configuration)
    (categories : List String) (project : ProjectInfo) : ProjectInfo :=
  let pi1 := enrich project
  let pi2 :=
    if ¬ pi1.updated_at.isSome ∧ pi1.created_at.isSome then
      { pi1 with updated_at := pi1.created_at }
    else pi1
  let pi3 := apply_filters now pi2 cfg
  let pi4 := dict_update pi3 project
  (update_project_category pi4 categories).1

/-- The duplicate-dropping loop skeleton of `collect_projects_info`
(lines 707-734): a record whose lowercased name was already seen is dropped
with an info log; otherwise it is processed (by `f`, standing for the whole
per-record body) and its lowercased name is recorded. -/
def collect_dedup (f : ProjectInfo → ProjectInfo) :
    List ProjectInfo → List String → List ProjectInfo × List LogEntry
  | [], _ => ([], [])
  | p :: rest, seen =>
    let nm := str_lower (p.name.getD "")
    if nm ∈ seen then
      let r := collect_dedup f rest seen
      (r.1, (LogLevel.info, "Project " ++ p.name.getD "" ++ " is duplicated.") :: r.2)
    else
      let r := collect_dedup f rest (nm :: seen)
      (f p :: r.1, r.2)

/-- Claim-side description of duplicate dropping, following the spec's words
("first occurrence wins", later case-insensitive duplicates are dropped):
keep the head and recurse on the tail purged of records with the same
lowercased name. -/
def spec_firsts : List ProjectInfo → List ProjectInfo
  | [] => []
  | p :: rest =>
    p :: spec_firsts (rest.filter
      (fun q => str_lower (q.name.getD "") ≠ str_lower (p.name.getD "")))
termination_by l => l.length
decreasing_by
  simp only [List.length_cons]
  exact Nat.lt_succ_of_le (List.length_filter_le _ _)

/-- Claim-side "latest date observed": the maximum of the initial value (when
present) and all observed values, `none` when nothing was ever observed. -/
def spec_latest (init : Option Int) (vs : List Int) : Option Int :=
  match init.toList ++ vs with
  | [] => none
  | x :: xs => some (xs.foldl max x)

/-- Claim-side "earliest date observed": the minimum of the initial value
(when present) and all observed values. -/
def spec_earliest (init : Option Int) (vs : List Int) : Option Int :=
  match init.toList ++ vs with
  | [] => none
  | x :: xs => some (xs.foldl min x)

/-- One observation step for a date field: `none` models "this adapter result
contributed no usable date" (absent, falsy, or unparsable). -/
def obs_latest (u : Option Int) (o : Option Int) : Option Int :=
  match o with
  | none => u
  | some d => merge_latest u d

/-- One observation step for `created_at`. -/
def obs_earliest (u : Option Int) (o : Option Int) : Option Int :=
  match o with
  | none => u
  | some d => merge_earliest u d

/-- The enrichment fold over one numeric metric: the sequence of values the
sources supplied for the field, merged left to right by the shared
metric-merge pattern. -/
def metric_fold (init : Option Nat) (vs : List Nat) : Option Nat :=
  vs.foldl (fun cur v => bump_metric cur (some v)) init

/-- Claim-side maximum of the initial metric value and all nonzero supplied
values: the final metric after the enrichment fold. -/
def spec_metric_max (init : Option Nat) (vs : List Nat) : Option Nat :=
  if vs.filter (fun v => 0 < v) = [] then init
  else some ((vs.filter (fun v => 0 < v)).foldl max (init.getD 0))

/-- The literal claim-side metric maximum: the maximum over the initial value
(when present) and every value supplied by a source, counting a supplied `0`
as a value; `none` only when nothing at all was supplied or present. -/
def spec_metric_literal (init : Option Nat) (vs : List Nat) : Option Nat :=
  match init, vs with
  | none, [] => none
  | _, _ => some (vs.foldl max (init.getD 0))

/-- The date observation a guarded timestamp block contributes: `none` when
the raw value is absent or falsy or fails to parse. -/
def date_obs (ext : ExtFns) (raw : Option String) : Option Int :=
  if tStr raw then ext.parseDate (raw.getD "") else none

/-- The date observation the versions block of `update_package_via_libio`
contributes: the parse of the first entry's `published_at`, when any entry
exists. -/
def version_obs (ext : ExtFns) (vs : List String) : Option Int :=
  match vs with
  | [] => none
  | v :: _ => ext.parseDate v

/-- An external-function bundle on which every parse fails and every URL path
is empty. -/
def ext0 : ExtFns :=
  { parseDate := fun _ => none, pathOf := fun _ => "", procDescription := fun _ => "" }

/-- An external-function bundle on which every parse succeeds (at the string
length) and processing a description returns it unchanged. -/
def ext1 : ExtFns :=
  { parseDate := fun s => some (s.length : Int), pathOf := fun s => s,
    procDescription := fun s => s }

/-- The catalog entry of the end-to-end scenario of the spec, enriched with a
rank of 8 and a popularity of 150 and no license. -/
def fooP : ProjectInfo :=
  { name := some "Foo"
    homepage := some "https://x"
    description := some "a tool that does X and Y"
    category := some "tools"
    sourcerank := some 8
    star_count := some 150 }

/-- The same scenario record with license "MIT". -/
def fooM : ProjectInfo := { fooP with license := some "MIT" }

/-- The scenario record with license "MIT" but a present star count of 0. -/
def fooZ : ProjectInfo := { fooM with star_count := some 0 }

/-- Ten projects of one category with ranks 10, 20, ..., 100 (the percentile
example of the spec). -/
def ps10 : List ProjectInfo :=
  (List.range 10).map (fun i =>
    { category := some "a", sourcerank := some ((i + 1) * 10) : ProjectInfo })

/-- A project with a present-but-zero composite rank. -/
def przero : ProjectInfo := { category := some "a", sourcerank := some 0 }

/-- A project with rank 5 in the same category. -/
def prfive : ProjectInfo := { category := some "a", sourcerank := some 5 }

/-- A catalog entry that explicitly supplies a category that is not
configured. -/
def bogusCat : ProjectInfo := { name := some "A", category := some "bogus" }

/-- A record with only a name (for metric counterexamples). -/
def pA : ProjectInfo := { name := some "A" }

/-- A package result supplying a star count of zero. -/
def pkgZ : PackageInfo := { stars := some 0 }

/-- A GitHub result supplying a stargazer count of zero. -/
def gZ : GithubApiInfo := { stargazers_totalCount := some 0 }

/-- A package result carrying raw dates (for witnesses). -/
def pkgD : PackageInfo :=
  { latest_release_published_at := some "2020-01-02", versions := ["2021-03-04"] }

/-! ## Theorems -/

/-- A chain of `show = False` overrides: the final flag is `true` exactly
when the triggering condition is false and the flag was `true` before. -/
theorem ite_false_chain (c : Prop) [Decidable c] (b : Bool) :
    ((if c then false else b) = true) ↔ (¬ c ∧ b = true) := by
  split <;> simp_all

/-- C1 (amended): `apply_filters` sets the record's visibility flag to `true`
iff none of the listed conditions holds, where — matching the code's
truthiness guards — the rank and popularity conditions require a present
*nonzero* value and a nonzero threshold, the allow-list condition
additionally requires a non-empty allow-list, and the staleness condition
requires a nonzero `project_dead_months`; and, as the claim states, the
end-to-end scenario record gets `visible=false` without a license and
`visible=true` with license "MIT" under the default configuration. -/
theorem claim_C1_amended (ic : InputConfig) (p : ProjectInfo) (now : Int) :
    (let cfg := prepare_configuration ic
     (apply_filters now p cfg).show_flag = some true ↔
      ¬((¬ tStr p.name ∨ ¬ tStr p.homepage ∨ ¬ tStr p.description ∨
          (p.description.getD "").length < MIN_PROJECT_DESC_LENGTH) ∨
        (cfg.min_sourcerank ≠ 0 ∧ tNat p.sourcerank ∧
          p.sourcerank.getD 0 < cfg.min_sourcerank) ∨
        (cfg.min_stars ≠ 0 ∧ tNat p.star_count ∧
          p.star_count.getD 0 < cfg.min_stars) ∨
        (¬ tStr p.license ∧ cfg.require_license) ∨
        (cfg.require_pypi ∧ ¬ tStr p.pypi_url) ∨
        (cfg.require_github ∧ ¬ tStr p.github_url) ∨
        (cfg.require_npm ∧ ¬ tStr p.npm_url) ∨
        (cfg.require_conda ∧ ¬ tStr p.conda_url) ∨
        (cfg.require_dockerhub ∧ ¬ tStr p.dockerhub_url) ∨
        (cfg.allowed_licenses ≠ [] ∧ tStr p.license ∧
          normalized_project_license (p.license.getD "") ∉
            normalized_allowed_licenses cfg) ∨
        (p.updated_at.isSome ∧ cfg.project_dead_months ≠ 0 ∧
          (cfg.project_dead_months : Int) < diff_month now (p.updated_at.getD 0)))) ∧
    (apply_filters 0 fooP (prepare_configuration {})).show_flag = some false ∧
    (apply_filters 0 fooM (prepare_configuration {})).show_flag = some true := by
  refine ⟨?_, by decide, by decide⟩
  simp only [apply_filters, Option.some.injEq, ite_false_chain, not_or]
  constructor
  · rintro ⟨h11, h10, h9, h8, h7, h6, h5, h4, h3, h2, h1, -⟩
    exact ⟨h1, h2, h3, h4, h5, h6, h7, h8, h9, h10, h11⟩
  · rintro ⟨h1, h2, h3, h4, h5, h6, h7, h8, h9, h10, h11⟩
    exact ⟨h11, h10, h9, h8, h7, h6, h5, h4, h3, h2, h1, trivial⟩

/-- C1 (counterexample): under the default configuration, a record whose
star count is present and equal to 0 — hence below `min_stars = 100` — is
still made visible, because the code's truthiness guard skips the popularity
condition for a zero value, contradicting the claim's "popularity present and
below min_stars" condition read literally. -/
theorem claim_C1_counterexample :
    (apply_filters 0 fooZ (prepare_configuration {})).show_flag = some true ∧
    fooZ.star_count = some 0 ∧
    fooZ.star_count.getD 0 < (prepare_configuration {}).min_stars := by
  exact ⟨by decide, by decide, by decide⟩

/-- The visible list of each category bucket after `categorize_projects`:
the previous content followed by exactly the eligible, shown projects of that
category, in input order. -/
theorem categorize_projects_visible (projects : List ProjectInfo) (cats : String → Bucket)
    (c : String) :
    (categorize_projects projects cats c).projects
      = (cats c).projects ++ projects.filter
          (fun p => decide (categorize_eligible p ∧ tBool p.show_flag ∧ p.category.getD "" = c)) := by
  induction projects generalizing cats with
  | nil => simp [categorize_projects]
  | cons p rest ih =>
    simp only [categorize_projects, List.foldl_cons, List.filter_cons] at *
    by_cases he : categorize_eligible p
    · by_cases hc : p.category.getD "" = c
      · by_cases hs : tBool p.show_flag
        · rw [ih]
          simp [he, hs, hc]
        · rw [ih]
          simp [he, hs, hc]
      · by_cases hs : tBool p.show_flag
        · rw [ih]
          simp [he, hs, hc, Ne.symm hc]
        · rw [ih]
          simp [he, hs, hc, Ne.symm hc]
    · rw [ih]
      simp [he]

/-- The hidden list of each category bucket after `categorize_projects`: the
previous content followed by exactly the eligible, not-shown projects of that
category, in input order. -/
theorem categorize_projects_hidden (projects : List ProjectInfo) (cats : String → Bucket)
    (c : String) :
    (categorize_projects projects cats c).hidden_projects
      = (cats c).hidden_projects ++ projects.filter
          (fun p => decide (categorize_eligible p ∧ ¬ tBool p.show_flag ∧ p.category.getD "" = c)) := by
  induction projects generalizing cats with
  | nil => simp [categorize_projects]
  | cons p rest ih =>
    simp only [categorize_projects, List.foldl_cons, List.filter_cons] at *
    by_cases he : categorize_eligible p
    · by_cases hc : p.category.getD "" = c
      · by_cases hs : tBool p.show_flag
        · rw [ih]
          simp [he, hs, hc]
        · rw [ih]
          simp [he, hs, hc]
      · by_cases hs : tBool p.show_flag
        · rw [ih]
          simp [he, hs, hc, Ne.symm hc]
        · rw [ih]
          simp [he, hs, hc, Ne.symm hc]
    · rw [ih]
      simp [he]

/-- C10: `categorize_projects` appends each project to its category's
visible `projects` list when its show flag is truthy and to the category's
`hidden_projects` list when falsy, except that a project lacking a truthy
name, lacking a truthy homepage, or whose description is absent or shorter
than 10 characters is skipped entirely: each resulting bucket list is its
previous content followed by exactly the eligible projects of that category
with the corresponding flag value, so an ineligible project appears in
neither list of any bucket regardless of its flag. -/
theorem claim_C10 (projects : List ProjectInfo) (cats : String → Bucket) (c : String) :
    ((categorize_projects projects cats c).projects
      = (cats c).projects ++ projects.filter
          (fun p => decide (categorize_eligible p ∧ tBool p.show_flag ∧ p.category.getD "" = c)))
  ∧ ((categorize_projects projects cats c).hidden_projects
      = (cats c).hidden_projects ++ projects.filter
          (fun p => decide (categorize_eligible p ∧ ¬ tBool p.show_flag ∧ p.category.getD "" = c))) :=
  ⟨categorize_projects_visible projects cats c, categorize_projects_hidden projects cats c⟩

/-- A project of the list that has a truthy category and rank contributes its
rank to its category's distribution, which is therefore non-empty. -/
theorem category_ranks_ne_nil (ps : List ProjectInfo) (pr : ProjectInfo) (hm : pr ∈ ps)
    (h1 : tNat pr.sourcerank) (h2 : tStr pr.category) :
    category_ranks ps (pr.category.getD "") ≠ [] := by
  have : pr.sourcerank.getD 0 ∈ category_ranks ps (pr.category.getD "") := by
    unfold category_ranks
    rw [List.mem_filterMap]
    refine ⟨pr, hm, ?_⟩
    rw [if_pos ⟨h2, h1, rfl⟩]
    cases hs : pr.sourcerank with
    | none => simp [tNat, hs] at h1
    | some v => simp [hs]
  exact List.ne_nil_of_mem this

/-- C4 (amended): within each category independently,
`calc_sourcerank_placing` assigns tier 1 to a project with a truthy (present
and nonzero) rank and truthy category iff its rank reaches the
90th linear-interpolation percentile of that category's rank distribution,
tier 2 iff it reaches only the 60th, and tier 3 otherwise; a project without
a truthy rank or truthy category is left unchanged (receives no tier).  On
the ten ranks 10..100 the thresholds are 91 (strictly between 90 and 100)
and 64 (strictly between 60 and 70), so exactly the top entry gets tier 1. -/
theorem claim_C4_amended (ps : List ProjectInfo) (i : Nat) (h : i < ps.length) :
    (let pr := ps.getD i default
     let out := (calc_sourcerank_placing ps).getD i default
     let r : ℚ := (pr.sourcerank.getD 0 : ℚ)
     let ranks := category_ranks ps (pr.category.getD "")
     (tNat pr.sourcerank → tStr pr.category →
        ((out.sourcerank_placing = some 1 ↔ percentile_linear ranks 90 ≤ r) ∧
         (out.sourcerank_placing = some 2 ↔
            ¬ percentile_linear ranks 90 ≤ r ∧ percentile_linear ranks 60 ≤ r) ∧
         (out.sourcerank_placing = some 3 ↔
            ¬ percentile_linear ranks 90 ≤ r ∧ ¬ percentile_linear ranks 60 ≤ r))) ∧
     (¬ (tNat pr.sourcerank ∧ tStr pr.category) → out = pr)) ∧
    percentile_linear [10,20,30,40,50,60,70,80,90,100] 90 = 91 ∧
    ((90 : ℚ) < 91 ∧ (91 : ℚ) < 100) ∧
    percentile_linear [10,20,30,40,50,60,70,80,90,100] 60 = 64 ∧
    ((60 : ℚ) < 64 ∧ (64 : ℚ) < 70) ∧
    (calc_sourcerank_placing ps10).map (·.sourcerank_placing)
      = [some 3, some 3, some 3, some 3, some 3, some 3, some 2, some 2, some 2, some 1] := by
  have hout : (calc_sourcerank_placing ps).getD i default
      = place_project ps (ps.getD i default) := by
    rw [calc_sourcerank_placing]
    rw [List.getD_eq_getElem ps default h,
        List.getD_eq_getElem _ default (by simpa [calc_sourcerank_placing] using h)]
    simp
  refine ⟨⟨?_, ?_⟩, ?_, ⟨by norm_num, by norm_num⟩, ?_, ⟨by norm_num, by norm_num⟩, ?_⟩
  · intro h1 h2
    have hm : ps.getD i default ∈ ps := by
      rw [List.getD_eq_getElem ps default h]; exact List.getElem_mem h
    have hr := category_ranks_ne_nil ps _ hm h1 h2
    rw [hout, place_project, if_pos ⟨h1, h2⟩]
    simp only [if_neg hr]
    constructor
    · split_ifs with ha hb <;> simp_all
    constructor
    · split_ifs with ha hb <;> simp_all
    · split_ifs with ha hb <;> simp_all
  · intro hn
    rw [hout, place_project, if_neg hn]
  · norm_num [percentile_linear, sort_asc, insert_sorted]
  · norm_num [percentile_linear, sort_asc, insert_sorted]
  · have h1 : category_ranks ps10 "a" = [10,20,30,40,50,60,70,80,90,100] := by decide
    have h2 : percentile_linear [10,20,30,40,50,60,70,80,90,100] 90 = 91 := by
      norm_num [percentile_linear, sort_asc, insert_sorted]
    have h3 : percentile_linear [10,20,30,40,50,60,70,80,90,100] 60 = 64 := by
      norm_num [percentile_linear, sort_asc, insert_sorted]
    have e : ps10 = [
      { category := some "a", sourcerank := some 10 },
      { category := some "a", sourcerank := some 20 },
      { category := some "a", sourcerank := some 30 },
      { category := some "a", sourcerank := some 40 },
      { category := some "a", sourcerank := some 50 },
      { category := some "a", sourcerank := some 60 },
      { category := some "a", sourcerank := some 70 },
      { category := some "a", sourcerank := some 80 },
      { category := some "a", sourcerank := some 90 },
      { category := some "a", sourcerank := some 100 }] := by decide
    rw [calc_sourcerank_placing]
    conv_lhs => rw [e]
    rw [e] at h1
    simp only [List.map_cons, List.map_nil]
    norm_num [place_project, h1, h2, h3, tNat, tStr]
    decide

/-- C4 (witness): the top-ranked of the ten example projects is assigned
tier 1 because its rank 100 reaches the 90th-percentile threshold of its
category. -/
theorem claim_C4_witness :
    ((calc_sourcerank_placing ps10).getD 9 default).sourcerank_placing = some 1 ↔
      percentile_linear (category_ranks ps10 ((ps10.getD 9 default).category.getD "")) 90 ≤
        (((ps10.getD 9 default).sourcerank.getD 0 : Nat) : ℚ) := by
  have h := claim_C4_amended ps10 9 (by decide)
  exact (h.1.1 (by decide) (by decide)).1

/-- C4 (counterexample): a project whose composite rank is present but equal
to 0 — together with a second ranked project in the same category — receives
no tier at all, while the claim (which promises tier 3 to every
categorized, ranked project below the 60th percentile) would require one. -/
theorem claim_C4_counterexample :
    ((calc_sourcerank_placing [przero, prfive]).getD 0 default).sourcerank_placing = none ∧
    przero.sourcerank = some 0 ∧ przero.category = some "a" ∧
    ((calc_sourcerank_placing [przero, prfive]).getD 0 default) = przero := by
  have : (calc_sourcerank_placing [przero, prfive]).getD 0 default
      = place_project [przero, prfive] przero := by
    simp [calc_sourcerank_placing]
  rw [place_project] at this
  rw [if_neg (by decide)] at this
  exact ⟨by rw [this]; decide, by decide, by decide, this⟩

/-- Every record kept by the claim-side dedup comes from the input list. -/
theorem spec_firsts_sublist_mem (ps : List ProjectInfo) (q : ProjectInfo)
    (h : q ∈ spec_firsts ps) : q ∈ ps := by
  induction ps using spec_firsts.induct with
  | case1 => simp [spec_firsts] at h
  | case2 p rest ih =>
    rw [spec_firsts] at h
    rcases List.mem_cons.mp h with h1 | h2
    · exact h1 ▸ List.mem_cons_self p rest
    · exact List.mem_cons_of_mem p (List.mem_of_mem_filter (ih h2))

/-- The claim-side dedup produces case-insensitively distinct names. -/
theorem spec_firsts_pairwise (ps : List ProjectInfo) :
    (spec_firsts ps).Pairwise
      (fun a b => str_lower (a.name.getD "") ≠ str_lower (b.name.getD "")) := by
  induction ps using spec_firsts.induct with
  | case1 => simp [spec_firsts]
  | case2 p rest ih =>
    rw [spec_firsts]
    refine List.Pairwise.cons ?_ ih
    intro b hb
    have := List.mem_filter.mp (spec_firsts_sublist_mem _ _ hb)
    have h2 := this.2
    simp only [decide_eq_true_eq] at h2
    exact fun he => h2 (he ▸ rfl)

/-- Every input record is either processed or logged: the dedup loop never
aborts. -/
theorem collect_dedup_length (f : ProjectInfo → ProjectInfo) (ps : List ProjectInfo)
    (seen : List String) :
    (collect_dedup f ps seen).1.length + (collect_dedup f ps seen).2.length = ps.length := by
  induction ps generalizing seen with
  | nil => simp [collect_dedup]
  | cons p rest ih =>
    rw [collect_dedup]
    split
    · simp only [List.length_cons]
      have := ih seen
      omega
    · simp only [List.length_cons]
      have := ih (str_lower (p.name.getD "") :: seen)
      omega

/-- The processed list of the dedup loop is exactly the claim-side first
occurrences (those whose lowercased name is not in `seen`), each processed by
the per-record body. -/
theorem collect_dedup_eq_spec (f : ProjectInfo → ProjectInfo) (ps : List ProjectInfo)
    (seen : List String) :
    (collect_dedup f ps seen).1
      = (spec_firsts (ps.filter
          (fun p => !(seen.contains (str_lower (p.name.getD "")))))).map f := by
  induction ps generalizing seen with
  | nil => simp [collect_dedup, spec_firsts]
  | cons p rest ih =>
    rw [collect_dedup, List.filter_cons]
    by_cases hmem : str_lower (p.name.getD "") ∈ seen
    · rw [if_pos hmem]
      have hc : (seen.contains (str_lower (p.name.getD ""))) = true := by
        simpa using hmem
      simp only [hc, Bool.not_true, if_neg (by simp : ¬ (false = true))]
      exact ih seen
    · rw [if_neg hmem]
      have hc : (seen.contains (str_lower (p.name.getD ""))) = false := by
        simpa using hmem
      simp only [hc, Bool.not_false, eq_self_iff_true, if_true]
      rw [spec_firsts.eq_2, List.map_cons]
      congr 1
      rw [ih (str_lower (p.name.getD "") :: seen)]
      congr 1
      rw [List.filter_filter]
      congr 1
      apply List.filter_congr
      intro q _
      simp [List.contains_cons, not_or, Bool.and_comm, eq_comm]

/-- Every log entry the dedup loop emits is at info level. -/
theorem collect_dedup_logs_info (f : ProjectInfo → ProjectInfo) (ps : List ProjectInfo)
    (seen : List String) :
    ∀ e ∈ (collect_dedup f ps seen).2, e.1 = LogLevel.info := by
  induction ps generalizing seen with
  | nil => simp [collect_dedup]
  | cons p rest ih =>
    rw [collect_dedup]
    split
    · intro e he
      rcases List.mem_cons.mp he with h1 | h2
      · rw [h1]
      · exact ih seen e h2
    · exact ih _

/-- C5: the `collect_projects_info` loop processes a record only if its
lowercased name has not occurred earlier: the processed list is exactly the
per-record body applied to the first occurrence of each case-insensitive
name, the kept names are pairwise distinct case-insensitively, every input is
either processed or logged (never fatal), and all duplicate logs are at info
level.  The hypothesis restricts to catalogs whose records all carry a
non-empty name, the domain on which the Python loop is defined. -/
theorem claim_C5 (f : ProjectInfo → ProjectInfo) (projects : List ProjectInfo)
    (h : ∀ p ∈ projects, tStr p.name) :
    (collect_dedup f projects []).1 = (spec_firsts projects).map f ∧
    (spec_firsts projects).Pairwise
      (fun a b => str_lower (a.name.getD "") ≠ str_lower (b.name.getD "")) ∧
    (collect_dedup f projects []).1.length + (collect_dedup f projects []).2.length
      = projects.length ∧
    (∀ e ∈ (collect_dedup f projects []).2, e.1 = LogLevel.info) := by
  refine ⟨?_, spec_firsts_pairwise projects, collect_dedup_length f projects [],
    collect_dedup_logs_info f projects []⟩
  rw [collect_dedup_eq_spec f projects []]
  congr 1
  congr 1
  simp

/-- C5 (witness): two records named "A" (the second also categorized) and one
named "Foo": the second "A" is dropped, the processed list keeps the first
occurrence of each name. -/
theorem claim_C5_witness :
    (∀ p ∈ [pA, bogusCat, fooP], tStr p.name) ∧
    ((collect_dedup id [pA, bogusCat, fooP] []).1 = (spec_firsts [pA, bogusCat, fooP]).map id ∧
     (spec_firsts [pA, bogusCat, fooP]).Pairwise
       (fun a b => str_lower (a.name.getD "") ≠ str_lower (b.name.getD "")) ∧
     (collect_dedup id [pA, bogusCat, fooP] []).1.length +
       (collect_dedup id [pA, bogusCat, fooP] []).2.length = 3 ∧
     (∀ e ∈ (collect_dedup id [pA, bogusCat, fooP] []).2, e.1 = LogLevel.info)) ∧
    spec_firsts [pA, bogusCat, fooP] = [pA, fooP] :=
  ⟨by decide, claim_C5 id [pA, bogusCat, fooP] (by decide), by
    rw [spec_firsts.eq_2, List.filter_cons_of_neg (by decide),
      List.filter_cons_of_pos (by decide), List.filter_nil,
      spec_firsts.eq_2, List.filter_nil, spec_firsts.eq_1]⟩

/-- A truthy incoming metric bumps the field to the maximum of the current
value (0 when falsy) and the incoming value. -/
theorem bump_metric_pos (init : Option Nat) (v : Nat) (hv : v ≠ 0) :
    bump_metric init (some v) = some (max (init.getD 0) v) := by
  unfold bump_metric
  rw [if_pos (by simpa [tNat] using hv)]
  by_cases h : tNat init
  · rw [if_neg (not_not_intro h)]
    rcases Nat.lt_or_ge (init.getD 0) v with hl | hl
    · rw [if_pos (by simpa using hl)]
      simp [Nat.max_eq_right (Nat.le_of_lt hl)]
    · rw [if_neg (by simpa using Nat.not_lt.mpr hl)]
      cases hi : init with
      | none => simp [tNat, hi] at h
      | some x =>
        simp only [hi, Option.getD_some] at hl ⊢
        rw [Nat.max_eq_left hl]
  · rw [if_pos h]
    have : init.getD 0 = 0 := by
      by_contra hne
      exact h hne
    simp [this]

/-- An incoming metric of zero is falsy and leaves the field untouched. -/
theorem bump_metric_zero (init : Option Nat) : bump_metric init (some 0) = init := by
  unfold bump_metric
  rw [if_neg (by simp [tNat])]

/-- An absent incoming metric leaves the field untouched. -/
theorem bump_metric_none (init : Option Nat) : bump_metric init none = init := by
  unfold bump_metric
  rw [if_neg (by simp [tNat])]

/-- Prepending a nonzero supplied value to the claim-side maximum absorbs it
into the starting value. -/
theorem spec_metric_max_cons_pos (init : Option Nat) (v : Nat) (rest : List Nat)
    (hv : v ≠ 0) :
    spec_metric_max init (v :: rest) = spec_metric_max (some (max (init.getD 0) v)) rest := by
  unfold spec_metric_max
  have hfil : (v :: rest).filter (fun x => decide (0 < x))
      = v :: rest.filter (fun x => decide (0 < x)) := by
    simp [List.filter_cons, Nat.pos_of_ne_zero hv]
  rw [hfil]
  by_cases hrest : rest.filter (fun x => decide (0 < x)) = []
  · rw [hrest, if_neg (List.cons_ne_nil v []), if_pos rfl]
    simp
  · rw [if_neg (List.cons_ne_nil _ _), if_neg hrest]
    simp [List.foldl_cons]

/-- The enrichment fold over one numeric metric computes exactly the maximum
of the initial value and all nonzero supplied values. -/
theorem metric_fold_eq_spec (init : Option Nat) (vs : List Nat) :
    metric_fold init vs = spec_metric_max init vs := by
  induction vs generalizing init with
  | nil => simp [metric_fold, spec_metric_max]
  | cons v rest ih =>
    rw [metric_fold, List.foldl_cons]
    rw [show List.foldl (fun cur v => bump_metric cur (some v)) (bump_metric init (some v)) rest
      = metric_fold (bump_metric init (some v)) rest from rfl]
    rw [ih]
    by_cases hv : v = 0
    · subst hv
      rw [bump_metric_zero]
      unfold spec_metric_max
      simp
    · rw [bump_metric_pos init v hv, spec_metric_max_cons_pos init v rest hv]

/-- One metric merge step never decreases a metric and never removes it. -/
theorem bump_metric_mono (cur v : Option Nat) :
    cur.getD 0 ≤ (bump_metric cur v).getD 0 ∧ (cur.isSome → (bump_metric cur v).isSome) := by
  cases v with
  | none => rw [bump_metric_none]; exact ⟨Nat.le_refl _, fun h => h⟩
  | some k =>
    by_cases hk : k = 0
    · subst hk; rw [bump_metric_zero]; exact ⟨Nat.le_refl _, fun h => h⟩
    · rw [bump_metric_pos cur k hk]
      exact ⟨Nat.le_max_left _ _, fun _ => rfl⟩

/-- C2 (amended): every numeric-metric block of the three merge functions is
one `bump_metric` step on the corresponding field, a single step never
decreases a present metric, and folding the steps over any sequence of
supplied values yields exactly the maximum of the record's initial value and
all *nonzero* supplied values (a supplied zero is falsy for the code's guards
and is ignored, so it cannot establish a present zero metric). -/
theorem claim_C2_amended :
    (∀ init vs, metric_fold init vs = spec_metric_max init vs) ∧
    (∀ cur v, cur.getD 0 ≤ (bump_metric cur v).getD 0 ∧
      (cur.isSome → (bump_metric cur v).isSome)) ∧
    (∀ ext p pkg, ¬(p = default ∨ pkg = (default : PackageInfo)) →
      ((update_package_via_libio ext p pkg).1.star_count
          = bump_metric p.star_count pkg.stars ∧
       (update_package_via_libio ext p pkg).1.fork_count
          = bump_metric p.fork_count pkg.forks ∧
       (update_package_via_libio ext p pkg).1.sourcerank
          = bump_metric p.sourcerank pkg.rank)) ∧
    (∀ ext p g, (update_via_github_api_merge ext p g).1.star_count
          = bump_metric p.star_count g.stargazers_totalCount ∧
       (update_via_github_api_merge ext p g).1.fork_count
          = bump_metric p.fork_count g.forks_totalCount ∧
       (update_via_github_api_merge ext p g).1.open_issue_count
          = bump_metric p.open_issue_count g.issues_totalCount) ∧
    (∀ ext p r, (update_repo_via_libio_merge ext p r).1.sourcerank
          = bump_metric p.sourcerank r.rank ∧
       (update_repo_via_libio_merge ext p r).1.star_count
          = bump_metric p.star_count r.stargazers_count ∧
       (update_repo_via_libio_merge ext p r).1.fork_count
          = bump_metric p.fork_count r.forks_count ∧
       (update_repo_via_libio_merge ext p r).1.contributor_count
          = bump_metric p.contributor_count r.contributions_count ∧
       (update_repo_via_libio_merge ext p r).1.open_issue_count
          = bump_metric p.open_issue_count r.open_issues_count) := by
  refine ⟨metric_fold_eq_spec, bump_metric_mono, ?_, ?_, ?_⟩
  · intro ext p pkg hg
    unfold update_package_via_libio
    rw [if_neg hg]
    exact ⟨rfl, rfl, rfl⟩
  · intro ext p g
    exact ⟨rfl, rfl, rfl⟩
  · intro ext p r
    exact ⟨rfl, rfl, rfl, rfl, rfl⟩

/-- C2 (witness): merging a concrete package result into the one-field
record applies exactly one metric step to the star count. -/
theorem claim_C2_witness :
    ¬(pA = default ∨ pkgZ = (default : PackageInfo)) ∧
    (update_package_via_libio ext0 pA pkgZ).1.star_count
      = bump_metric pA.star_count pkgZ.stars :=
  ⟨by decide, (claim_C2_amended.2.2.1 ext0 pA pkgZ (by decide)).1⟩

/-- C2 (counterexample): a record with no star count merged with a source
that supplies a star count of 0 ends with an *absent* star count, while the
claim's "maximum over all values supplied" (a supplied 0 being a value)
demands a present 0. -/
theorem claim_C2_counterexample :
    metric_fold none [0] = none ∧ spec_metric_literal none [0] = some 0 ∧
    (update_package_via_libio ext0 pA pkgZ).1.star_count = none ∧
    pkgZ.stars = some 0 ∧ pA.star_count = none :=
  ⟨by decide, by decide, by decide, by decide, by decide⟩

/-- C8 (amended): in every merge rule a numeric metric value of 0 is treated
exactly like absence, not as a present value: an incoming 0 (like an absent
incoming value) leaves the field untouched, and an existing 0 is overwritten
by any truthy incoming value exactly as if the field were absent; the
stargazer block of the GitHub merge is one such step. -/
theorem claim_C8_amended :
    (∀ cur, bump_metric cur (some 0) = cur) ∧
    (∀ cur, bump_metric cur none = cur) ∧
    (∀ k : Nat, bump_metric (some 0) (some (k + 1)) = bump_metric none (some (k + 1))) ∧
    (∀ ext p g, (update_via_github_api_merge ext p g).1.star_count
      = bump_metric p.star_count g.stargazers_totalCount) := by
  refine ⟨bump_metric_zero, bump_metric_none, ?_, fun ext p g => rfl⟩
  intro k
  unfold bump_metric
  simp [tNat]

/-- C8 (counterexample): merging a GitHub result whose stargazer count is 0
into a record with no star count leaves the star count absent — not, as the
claim states, present and equal to 0. -/
theorem claim_C8_counterexample :
    (update_via_github_api_merge ext0 pA gZ).1.star_count = none ∧
    gZ.stargazers_totalCount = some 0 ∧ pA.star_count = none :=
  ⟨by decide, by decide, by decide⟩

/-- The "latest" merge step is the maximum of a present current value and the
incoming date. -/
theorem merge_latest_eq (u : Option Int) (d : Int) :
    merge_latest u d = some (max (u.getD d) d) := by
  cases u with
  | none => simp [merge_latest]
  | some c =>
    show (if c < d then some d else some c) = some (max ((some c).getD d) d)
    rcases lt_or_ge c d with h | h
    · rw [if_pos h, Option.getD_some, max_eq_right (le_of_lt h)]
    · rw [if_neg (not_lt.mpr h), Option.getD_some, max_eq_left h]

/-- The "earliest" merge step is the minimum of a present current value and
the incoming date. -/
theorem merge_earliest_eq (u : Option Int) (d : Int) :
    merge_earliest u d = some (min (u.getD d) d) := by
  cases u with
  | none => simp [merge_earliest]
  | some c =>
    show (if c > d then some d else some c) = some (min ((some c).getD d) d)
    rcases lt_or_ge d c with h | h
    · rw [if_pos h, Option.getD_some, min_eq_right (le_of_lt h)]
    · rw [if_neg (not_lt.mpr h), Option.getD_some, min_eq_left h]

/-- No observations leave the claim-side latest at the initial value. -/
theorem spec_latest_nil (init : Option Int) : spec_latest init [] = init := by
  cases init <;> simp [spec_latest]

/-- No observations leave the claim-side earliest at the initial value. -/
theorem spec_earliest_nil (init : Option Int) : spec_earliest init [] = init := by
  cases init <;> simp [spec_earliest]

/-- The claim-side latest absorbs its first observation into the start. -/
theorem spec_latest_cons (init : Option Int) (d : Int) (vs : List Int) :
    spec_latest init (d :: vs) = spec_latest (merge_latest init d) vs := by
  cases init with
  | none => simp [spec_latest, merge_latest]
  | some c =>
    rw [merge_latest_eq]
    simp only [spec_latest, Option.toList_some, Option.getD_some, List.cons_append,
      List.nil_append, List.foldl_cons]

/-- The claim-side earliest absorbs its first observation into the start. -/
theorem spec_earliest_cons (init : Option Int) (d : Int) (vs : List Int) :
    spec_earliest init (d :: vs) = spec_earliest (merge_earliest init d) vs := by
  cases init with
  | none => simp [spec_earliest, merge_earliest]
  | some c =>
    rw [merge_earliest_eq]
    simp only [spec_earliest, Option.toList_some, Option.getD_some, List.cons_append,
      List.nil_append, List.foldl_cons]

/-- Folding "latest" observation steps yields exactly the latest observed
date (or the initial value when nothing was observed). -/
theorem obs_fold_latest (l : List (Option Int)) (init : Option Int) :
    List.foldl obs_latest init l = spec_latest init (l.filterMap id) := by
  induction l generalizing init with
  | nil => simp [spec_latest_nil]
  | cons o rest ih =>
    cases o with
    | none => simp only [List.foldl_cons, obs_latest, List.filterMap_cons]; exact ih init
    | some d =>
      simp only [List.foldl_cons, obs_latest, List.filterMap_cons, id]
      rw [ih, spec_latest_cons]

/-- Folding "earliest" observation steps yields exactly the earliest observed
date. -/
theorem obs_fold_earliest (l : List (Option Int)) (init : Option Int) :
    List.foldl obs_earliest init l = spec_earliest init (l.filterMap id) := by
  induction l generalizing init with
  | nil => simp [spec_earliest_nil]
  | cons o rest ih =>
    cases o with
    | none => simp only [List.foldl_cons, obs_earliest, List.filterMap_cons]; exact ih init
    | some d =>
      simp only [List.foldl_cons, obs_earliest, List.filterMap_cons, id]
      rw [ih, spec_earliest_cons]

/-- A guarded raw "latest" block is one observation step. -/
theorem merge_latest_raw_obs (ext : ExtFns) (u : Option Int) (raw : Option String) :
    (merge_latest_raw ext u raw).1 = obs_latest u (date_obs ext raw) := by
  unfold merge_latest_raw date_obs obs_latest
  by_cases h : tStr raw
  · rw [if_pos h, if_pos h]
    cases ext.parseDate (raw.getD "") <;> simp
  · rw [if_neg h, if_neg h]

/-- A guarded raw "earliest" block is one observation step. -/
theorem merge_earliest_raw_obs (ext : ExtFns) (u : Option Int) (raw : Option String) :
    (merge_earliest_raw ext u raw).1 = obs_earliest u (date_obs ext raw) := by
  unfold merge_earliest_raw date_obs obs_earliest
  by_cases h : tStr raw
  · rw [if_pos h, if_pos h]
    cases ext.parseDate (raw.getD "") <;> simp
  · rw [if_neg h, if_neg h]

/-- The versions block is one observation step on the head entry. -/
theorem upl_versions_step_obs (ext : ExtFns) (u : Option Int) (vs : List String) :
    (upl_versions_step ext u vs).1 = obs_latest u (version_obs ext vs) := by
  unfold upl_versions_step version_obs obs_latest
  cases vs with
  | nil => rfl
  | cons v rest => cases h : ext.parseDate v <;> simp [h]

/-- C3: every date block of the merge functions is an observation step
(`none` = absent, falsy or unparsable raw value), and folding any sequence of
observation steps over a record yields exactly the earliest
successfully-parsed observed date for `created_at` and the latest for
`updated_at`, starting from the record's initial value. -/
theorem claim_C3 :
    (∀ init l, List.foldl obs_latest init l = spec_latest init (l.filterMap id)) ∧
    (∀ init l, List.foldl obs_earliest init l = spec_earliest init (l.filterMap id)) ∧
    (∀ ext p pkg, ¬(p = default ∨ pkg = (default : PackageInfo)) →
      (update_package_via_libio ext p pkg).1.updated_at
        = List.foldl obs_latest p.updated_at
            [date_obs ext pkg.latest_release_published_at, version_obs ext pkg.versions]) ∧
    (∀ ext p g,
      (update_via_github_api_merge ext p g).1.created_at
        = List.foldl obs_earliest p.created_at [date_obs ext g.createdAt] ∧
      (update_via_github_api_merge ext p g).1.updated_at
        = List.foldl obs_latest p.updated_at [date_obs ext g.pushedAt]) ∧
    (∀ ext p r,
      (update_repo_via_libio_merge ext p r).1.created_at
        = List.foldl obs_earliest p.created_at [date_obs ext r.created_at] ∧
      (update_repo_via_libio_merge ext p r).1.updated_at
        = List.foldl obs_latest p.updated_at [date_obs ext r.pushed_at]) := by
  refine ⟨fun init l => obs_fold_latest l init, fun init l => obs_fold_earliest l init,
    ?_, ?_, ?_⟩
  · intro ext p pkg hg
    unfold update_package_via_libio
    rw [if_neg hg]
    simp only [List.foldl_cons, List.foldl_nil]
    rw [← merge_latest_raw_obs ext p.updated_at pkg.latest_release_published_at,
      ← upl_versions_step_obs ext _ pkg.versions]
  · intro ext p g
    constructor
    · simp only [List.foldl_cons, List.foldl_nil]
      rw [← merge_earliest_raw_obs]
      rfl
    · simp only [List.foldl_cons, List.foldl_nil]
      rw [← merge_latest_raw_obs]
      rfl
  · intro ext p r
    constructor
    · simp only [List.foldl_cons, List.foldl_nil]
      rw [← merge_earliest_raw_obs]
      rfl
    · simp only [List.foldl_cons, List.foldl_nil]
      rw [← merge_latest_raw_obs]
      rfl

/-- C3 (witness): merging a concrete package result with two raw dates folds
exactly two observation steps into `updated_at`. -/
theorem claim_C3_witness :
    ¬(fooP = default ∨ pkgD = (default : PackageInfo)) ∧
    (update_package_via_libio ext1 fooP pkgD).1.updated_at
      = List.foldl obs_latest fooP.updated_at
          [date_obs ext1 pkgD.latest_release_published_at, version_obs ext1 pkgD.versions] :=
  ⟨by decide, claim_C3.2.2.1 ext1 fooP pkgD (by decide)⟩

/-- A truthy raw date that fails to parse leaves the field unchanged and
emits exactly the warning. -/
theorem merge_latest_raw_fail (ext : ExtFns) (u : Option Int) (s : String)
    (hp : ext.parseDate s = none) (hs : s ≠ "") :
    merge_latest_raw ext u (some s)
      = (u, [(LogLevel.warning, "Failed to parse timestamp: " ++ s)]) := by
  unfold merge_latest_raw
  rw [if_pos (by simpa [tStr] using hs)]
  simp only [Option.getD_some, hp]

/-- An absent raw date leaves the field unchanged with no log. -/
theorem merge_latest_raw_absent (ext : ExtFns) (u : Option Int) :
    merge_latest_raw ext u none = (u, []) := by
  unfold merge_latest_raw
  rw [if_neg (by simp [tStr])]

/-- A truthy raw `created_at` that fails to parse leaves the field unchanged
and emits exactly the warning. -/
theorem merge_earliest_raw_fail (ext : ExtFns) (u : Option Int) (s : String)
    (hp : ext.parseDate s = none) (hs : s ≠ "") :
    merge_earliest_raw ext u (some s)
      = (u, [(LogLevel.warning, "Failed to parse timestamp: " ++ s)]) := by
  unfold merge_earliest_raw
  rw [if_pos (by simpa [tStr] using hs)]
  simp only [Option.getD_some, hp]

/-- An absent raw `created_at` leaves the field unchanged with no log. -/
theorem merge_earliest_raw_absent (ext : ExtFns) (u : Option Int) :
    merge_earliest_raw ext u none = (u, []) := by
  unfold merge_earliest_raw
  rw [if_neg (by simp [tStr])]

/-- C9: a timestamp parse failure is non-fatal and local: the failing block
keeps the date field exactly as it was and records a warning, and the record
produced by the whole merge equals the one produced with the offending raw
value absent — every other field of the adapter result is still merged.
Shown for the `latest_release_published_at` block of
`update_package_via_libio` (with the resulting `updated_at` left at its prior
value when no version entry supplies a date, and the warning present in the
emitted logs) and for the `createdAt` block of the GitHub merge. -/
theorem claim_C9 :
    (∀ ext u s, ext.parseDate s = none → s ≠ "" →
      merge_latest_raw ext u (some s)
        = (u, [(LogLevel.warning, "Failed to parse timestamp: " ++ s)])) ∧
    (∀ ext u s, ext.parseDate s = none → s ≠ "" →
      merge_earliest_raw ext u (some s)
        = (u, [(LogLevel.warning, "Failed to parse timestamp: " ++ s)])) ∧
    (∀ (ext : ExtFns) (p : ProjectInfo) (pkg : PackageInfo) (s : String),
      ext.parseDate s = none → s ≠ "" →
      {pkg with latest_release_published_at := none} ≠ (default : PackageInfo) →
      (update_package_via_libio ext p {pkg with latest_release_published_at := some s}).1
        = (update_package_via_libio ext p {pkg with latest_release_published_at := none}).1) ∧
    (∀ (ext : ExtFns) (p : ProjectInfo) (pkg : PackageInfo) (s : String),
      ext.parseDate s = none → s ≠ "" → p ≠ default → pkg.versions = [] →
      (update_package_via_libio ext p {pkg with latest_release_published_at := some s}).1.updated_at
          = p.updated_at ∧
      (LogLevel.warning, "Failed to parse timestamp: " ++ s)
        ∈ (update_package_via_libio ext p {pkg with latest_release_published_at := some s}).2) ∧
    (∀ (ext : ExtFns) (p : ProjectInfo) (g : GithubApiInfo) (s : String),
      ext.parseDate s = none → s ≠ "" →
      ((update_via_github_api_merge ext p {g with createdAt := some s}).1
          = (update_via_github_api_merge ext p {g with createdAt := none}).1 ∧
       (update_via_github_api_merge ext p {g with createdAt := some s}).1.created_at
          = p.created_at ∧
       (LogLevel.warning, "Failed to parse timestamp: " ++ s)
          ∈ (update_via_github_api_merge ext p {g with createdAt := some s}).2)) := by
  refine ⟨merge_latest_raw_fail, merge_earliest_raw_fail, ?_, ?_, ?_⟩
  · intro ext p pkg s hp hs hg
    by_cases hd : p = default
    · unfold update_package_via_libio
      rw [if_pos (Or.inl hd), if_pos (Or.inl hd)]
    · have h1 : ¬(p = default ∨ {pkg with latest_release_published_at := some s}
          = (default : PackageInfo)) := by
        rintro (h | h)
        · exact hd h
        · exact Option.noConfusion (congrArg PackageInfo.latest_release_published_at h)
      have h0 : ¬(p = default ∨ {pkg with latest_release_published_at := none}
          = (default : PackageInfo)) := by
        rintro (h | h)
        · exact hd h
        · exact hg h
      unfold update_package_via_libio
      rw [if_neg h1, if_neg h0]
      dsimp only
      rw [merge_latest_raw_fail ext p.updated_at s hp hs, merge_latest_raw_absent]
      rfl
  · intro ext p pkg s hp hs hd hv
    have h1 : ¬(p = default ∨ {pkg with latest_release_published_at := some s}
        = (default : PackageInfo)) := by
      rintro (h | h)
      · exact hd h
      · exact Option.noConfusion (congrArg PackageInfo.latest_release_published_at h)
    unfold update_package_via_libio
    rw [if_neg h1]
    dsimp only
    rw [merge_latest_raw_fail ext p.updated_at s hp hs]
    constructor
    · show (upl_versions_step ext p.updated_at pkg.versions).1 = p.updated_at
      rw [hv]
      rfl
    · rw [hv]
      show _ ∈ (upl_license_step p.license _).2 ++
        ([(LogLevel.warning, "Failed to parse timestamp: " ++ s)] : List LogEntry) ++
        ([] : List LogEntry)
      simp
  · intro ext p g s hp hs
    refine ⟨?_, ?_, ?_⟩
    · unfold update_via_github_api_merge
      dsimp only
      rw [merge_earliest_raw_fail ext p.created_at s hp hs, merge_earliest_raw_absent]
    · show (merge_earliest_raw ext p.created_at (some s)).1 = p.created_at
      rw [merge_earliest_raw_fail ext p.created_at s hp hs]
    · show _ ∈ (merge_earliest_raw ext p.created_at (some s)).2 ++
        (merge_latest_raw ext p.updated_at g.pushedAt).2
      rw [merge_earliest_raw_fail ext p.created_at s hp hs]
      simp

/-- C9 (witness): merging a GitHub result whose `createdAt` is the
unparsable string "not a date" leaves `created_at` untouched. -/
theorem claim_C9_witness :
    ext0.parseDate "not a date" = none ∧ "not a date" ≠ "" ∧
    (update_via_github_api_merge ext0 fooP
      {gZ with createdAt := some "not a date"}).1.created_at = fooP.created_at :=
  ⟨rfl, by decide, (claim_C9.2.2.2.2 ext0 fooP gZ "not a date" rfl (by decide)).2.1⟩

/-- Re-running the homepage block changes nothing. -/
theorem upl_homepage_step_idem (h : Option String) (pkg : PackageInfo) :
    upl_homepage_step (upl_homepage_step h pkg) pkg = upl_homepage_step h pkg := by
  unfold upl_homepage_step
  split_ifs <;> simp_all [tStr]

/-- Re-running the name block changes nothing. -/
theorem upl_name_step_idem (n : Option String) (pkg : PackageInfo) :
    upl_name_step (upl_name_step n pkg) pkg = upl_name_step n pkg := by
  unfold upl_name_step
  split_ifs <;> simp_all [tStr]

/-- Re-running the github-id block changes nothing. -/
theorem upl_github_step_idem (ext : ExtFns) (gid gurl : Option String) (pkg : PackageInfo) :
    upl_github_step ext (upl_github_step ext gid gurl pkg).1
      (upl_github_step ext gid gurl pkg).2 pkg = upl_github_step ext gid gurl pkg := by
  unfold upl_github_step
  split_ifs <;> simp_all [tStr]

/-- Re-running the license block changes nothing. -/
theorem upl_license_step_idem (lic : Option String) (pkg : PackageInfo) :
    (upl_license_step (upl_license_step lic pkg).1 pkg).1 = (upl_license_step lic pkg).1 := by
  unfold upl_license_step
  split_ifs <;> simp_all [tStr]

/-- Re-running a metric block with the same incoming value changes nothing. -/
theorem bump_metric_idem (cur v : Option Nat) :
    bump_metric (bump_metric cur v) v = bump_metric cur v := by
  cases v with
  | none => rw [bump_metric_none, bump_metric_none]
  | some k =>
    by_cases hk : k = 0
    · subst hk; rw [bump_metric_zero, bump_metric_zero]
    · rw [bump_metric_pos cur k hk, bump_metric_pos _ k hk]
      simp [max_assoc]

/-- Re-running the description block changes nothing. -/
theorem merge_description_idem (ext : ExtFns) (d pd : Option String) :
    merge_description ext (merge_description ext d pd) pd = merge_description ext d pd := by
  unfold merge_description
  split_ifs <;> simp_all [tStr]

/-- A current date at least the incoming one is left unchanged. -/
theorem merge_latest_fix (c d : Int) (h : d ≤ c) : merge_latest (some c) d = some c := by
  rw [merge_latest_eq, Option.getD_some, max_eq_left h]

/-- A falsy raw date is skipped. -/
theorem merge_latest_raw_falsy (ext : ExtFns) (u : Option Int) (raw : Option String)
    (h : ¬ tStr raw) : merge_latest_raw ext u raw = (u, []) := by
  unfold merge_latest_raw
  rw [if_neg h]

/-- A parsable truthy raw date merges as "latest". -/
theorem merge_latest_raw_parse (ext : ExtFns) (u : Option Int) (raw : Option String) (d : Int)
    (h : tStr raw) (hp : ext.parseDate (raw.getD "") = some d) :
    (merge_latest_raw ext u raw).1 = merge_latest u d := by
  unfold merge_latest_raw
  rw [if_pos h, hp]

/-- An unparsable truthy raw date leaves the field unchanged. -/
theorem merge_latest_raw_parse_fail (ext : ExtFns) (u : Option Int) (raw : Option String)
    (h : tStr raw) (hp : ext.parseDate (raw.getD "") = none) :
    (merge_latest_raw ext u raw).1 = u := by
  unfold merge_latest_raw
  rw [if_pos h, hp]

/-- The versions block never decreases a present date. -/
theorem upl_versions_step_mono (ext : ExtFns) (c : Int) (vs : List String) :
    ∃ m, (upl_versions_step ext (some c) vs).1 = some m ∧ c ≤ m := by
  cases vs with
  | nil => exact ⟨c, rfl, le_refl c⟩
  | cons v rest =>
    cases hp : ext.parseDate v with
    | none =>
      refine ⟨c, ?_, le_refl c⟩
      simp [upl_versions_step, hp]
    | some d =>
      refine ⟨max c d, ?_, le_max_left c d⟩
      simp [upl_versions_step, hp, merge_latest_eq]

/-- Re-running the versions block changes nothing. -/
theorem upl_versions_step_idem (ext : ExtFns) (u : Option Int) (vs : List String) :
    (upl_versions_step ext (upl_versions_step ext u vs).1 vs).1
      = (upl_versions_step ext u vs).1 := by
  cases vs with
  | nil => rfl
  | cons v rest =>
    cases hp : ext.parseDate v with
    | none => simp [upl_versions_step, hp]
    | some d =>
      simp [upl_versions_step, hp, merge_latest_eq, max_assoc]

/-- Re-running the two `updated_at` blocks on their own output changes
nothing. -/
theorem date_chain_idem (ext : ExtFns) (u : Option Int) (raw : Option String)
    (vs : List String) :
    (upl_versions_step ext
        (merge_latest_raw ext
          (upl_versions_step ext (merge_latest_raw ext u raw).1 vs).1 raw).1 vs).1
      = (upl_versions_step ext (merge_latest_raw ext u raw).1 vs).1 := by
  by_cases hr : tStr raw
  · cases hp : ext.parseDate (raw.getD "") with
    | none =>
      rw [merge_latest_raw_parse_fail ext _ raw hr hp]
      exact upl_versions_step_idem ext _ vs
    | some d =>
      rw [merge_latest_raw_parse ext u raw d hr hp]
      rw [merge_latest_eq]
      obtain ⟨m, hm, hcm⟩ := upl_versions_step_mono ext (max (u.getD d) d) vs
      rw [hm]
      rw [merge_latest_raw_parse ext (some m) raw d hr hp]
      rw [merge_latest_fix m d (le_trans (le_max_right _ d) hcm)]
      rw [← hm]
      exact upl_versions_step_idem ext _ vs
  · rw [merge_latest_raw_falsy ext
      (upl_versions_step ext (merge_latest_raw ext u raw).1 vs).1 raw hr]
    exact upl_versions_step_idem ext (merge_latest_raw ext u raw).1 vs

/-- The record produced by `update_package_via_libio` past its emptiness
guard, written field by field. -/
theorem upl_unfold (ext : ExtFns) (p : ProjectInfo) (pkg : PackageInfo)
    (hg : ¬(p = default ∨ pkg = default)) :
    (update_package_via_libio ext p pkg).1 = { p with
      homepage := upl_homepage_step p.homepage pkg
      name := upl_name_step p.name pkg
      github_id := (upl_github_step ext p.github_id p.github_url pkg).1
      github_url := (upl_github_step ext p.github_id p.github_url pkg).2
      license := (upl_license_step p.license pkg).1
      updated_at := (upl_versions_step ext
        (merge_latest_raw ext p.updated_at pkg.latest_release_published_at).1 pkg.versions).1
      star_count := bump_metric p.star_count pkg.stars
      fork_count := bump_metric p.fork_count pkg.forks
      sourcerank := bump_metric p.sourcerank pkg.rank
      description := merge_description ext p.description pkg.description } := by
  unfold update_package_via_libio
  rw [if_neg hg]

/-- C7: merging the same libraries.io package result a second time yields a
record equal to the one obtained after merging it once — every block either
finds its field already settled or recomputes the same value. -/
theorem claim_C7 (ext : ExtFns) (p : ProjectInfo) (pkg : PackageInfo) :
    (update_package_via_libio ext (update_package_via_libio ext p pkg).1 pkg).1
      = (update_package_via_libio ext p pkg).1 := by
  by_cases hg : p = default ∨ pkg = default
  · have h1 : update_package_via_libio ext p pkg = (p, []) := by
      unfold update_package_via_libio
      rw [if_pos hg]
    rw [h1]
    show (update_package_via_libio ext p pkg).1 = p
    rw [h1]
  · by_cases hq : (update_package_via_libio ext p pkg).1 = default ∨ pkg = default
    · have h2 : update_package_via_libio ext (update_package_via_libio ext p pkg).1 pkg
          = ((update_package_via_libio ext p pkg).1, []) := by
        conv_lhs => rw [update_package_via_libio]
        rw [if_pos hq]
      rw [h2]
    · rw [upl_unfold ext ((update_package_via_libio ext p pkg).1) pkg hq,
        upl_unfold ext p pkg hg]
      dsimp only
      rw [upl_homepage_step_idem, upl_name_step_idem, upl_github_step_idem,
        upl_license_step_idem, date_chain_idem, bump_metric_idem, bump_metric_idem,
        bump_metric_idem, merge_description_idem]

/-- The record produced by `update_project_category`: only the category field
changes, to the validated category (falsy or unconfigured categories become
the default catch-all). -/
theorem upc_eq (p : ProjectInfo) (cats : List String) :
    (update_project_category p cats).1 =
      (let c1 := if ¬ tStr p.category then DEFAULT_OTHERS_CATEGORY_ID else p.category.getD ""
       { p with category := some (if c1 ∈ cats then c1 else DEFAULT_OTHERS_CATEGORY_ID) }) := by
  unfold update_project_category
  dsimp only
  split_ifs <;> simp_all

/-- C6 (amended): for any enrichment function (hence any sequence of adapter
results), every field explicitly supplied in the original catalog entry —
except `category` — survives processing with exactly its supplied value,
because `project_info.update(project)` replays the catalog entry over the
enriched record; an explicitly supplied non-empty `category` survives only
when it is listed in the configured categories, and is otherwise replaced by
the default catch-all. -/
theorem claim_C6_amended (enrich : ProjectInfo → ProjectInfo) (now : Int)
    (cfg : Configuration) (cats : List String) (proj : ProjectInfo) :
    (proj.name.isSome → (process_record enrich now cfg cats proj).name = proj.name) ∧
    (proj.homepage.isSome → (process_record enrich now cfg cats proj).homepage = proj.homepage) ∧
    (proj.description.isSome → (process_record enrich now cfg cats proj).description = proj.description) ∧
    (proj.license.isSome → (process_record enrich now cfg cats proj).license = proj.license) ∧
    (proj.github_id.isSome → (process_record enrich now cfg cats proj).github_id = proj.github_id) ∧
    (proj.github_url.isSome → (process_record enrich now cfg cats proj).github_url = proj.github_url) ∧
    (proj.pypi_id.isSome → (process_record enrich now cfg cats proj).pypi_id = proj.pypi_id) ∧
    (proj.pypi_url.isSome → (process_record enrich now cfg cats proj).pypi_url = proj.pypi_url) ∧
    (proj.npm_id.isSome → (process_record enrich now cfg cats proj).npm_id = proj.npm_id) ∧
    (proj.npm_url.isSome → (process_record enrich now cfg cats proj).npm_url = proj.npm_url) ∧
    (proj.conda_id.isSome → (process_record enrich now cfg cats proj).conda_id = proj.conda_id) ∧
    (proj.conda_url.isSome → (process_record enrich now cfg cats proj).conda_url = proj.conda_url) ∧
    (proj.dockerhub_id.isSome → (process_record enrich now cfg cats proj).dockerhub_id = proj.dockerhub_id) ∧
    (proj.dockerhub_url.isSome → (process_record enrich now cfg cats proj).dockerhub_url = proj.dockerhub_url) ∧
    (proj.star_count.isSome → (process_record enrich now cfg cats proj).star_count = proj.star_count) ∧
    (proj.fork_count.isSome → (process_record enrich now cfg cats proj).fork_count = proj.fork_count) ∧
    (proj.contributor_count.isSome → (process_record enrich now cfg cats proj).contributor_count = proj.contributor_count) ∧
    (proj.open_issue_count.isSome → (process_record enrich now cfg cats proj).open_issue_count = proj.open_issue_count) ∧
    (proj.sourcerank.isSome → (process_record enrich now cfg cats proj).sourcerank = proj.sourcerank) ∧
    (proj.sourcerank_placing.isSome → (process_record enrich now cfg cats proj).sourcerank_placing = proj.sourcerank_placing) ∧
    (proj.created_at.isSome → (process_record enrich now cfg cats proj).created_at = proj.created_at) ∧
    (proj.updated_at.isSome → (process_record enrich now cfg cats proj).updated_at = proj.updated_at) ∧
    (proj.show_flag.isSome → (process_record enrich now cfg cats proj).show_flag = proj.show_flag) ∧
    (tStr proj.category → proj.category.getD "" ∈ cats →
      (process_record enrich now cfg cats proj).category = proj.category) ∧
    (tStr proj.category → proj.category.getD "" ∉ cats →
      (process_record enrich now cfg cats proj).category = some DEFAULT_OTHERS_CATEGORY_ID) := by
  refine ⟨?_, ?_, ?_, ?_, ?_, ?_, ?_, ?_, ?_, ?_, ?_, ?_, ?_, ?_, ?_, ?_, ?_, ?_, ?_, ?_, ?_, ?_, ?_, ?_, ?_⟩
  · intro h
    cases hv : proj.name with
    | none => rw [hv] at h; exact absurd h (by simp)
    | some v => simp [process_record, upc_eq, dict_update, hv]
  · intro h
    cases hv : proj.homepage with
    | none => rw [hv] at h; exact absurd h (by simp)
    | some v => simp [process_record, upc_eq, dict_update, hv]
  · intro h
    cases hv : proj.description with
    | none => rw [hv] at h; exact absurd h (by simp)
    | some v => simp [process_record, upc_eq, dict_update, hv]
  · intro h
    cases hv : proj.license with
    | none => rw [hv] at h; exact absurd h (by simp)
    | some v => simp [process_record, upc_eq, dict_update, hv]
  · intro h
    cases hv : proj.github_id with
    | none => rw [hv] at h; exact absurd h (by simp)
    | some v => simp [process_record, upc_eq, dict_update, hv]
  · intro h
    cases hv : proj.github_url with
    | none => rw [hv] at h; exact absurd h (by simp)
    | some v => simp [process_record, upc_eq, dict_update, hv]
  · intro h
    cases hv : proj.pypi_id with
    | none => rw [hv] at h; exact absurd h (by simp)
    | some v => simp [process_record, upc_eq, dict_update, hv]
  · intro h
    cases hv : proj.pypi_url with
    | none => rw [hv] at h; exact absurd h (by simp)
    | some v => simp [process_record, upc_eq, dict_update, hv]
  · intro h
    cases hv : proj.npm_id with
    | none => rw [hv] at h; exact absurd h (by simp)
    | some v => simp [process_record, upc_eq, dict_update, hv]
  · intro h
    cases hv : proj.npm_url with
    | none => rw [hv] at h; exact absurd h (by simp)
    | some v => simp [process_record, upc_eq, dict_update, hv]
  · intro h
    cases hv : proj.conda_id with
    | none => rw [hv] at h; exact absurd h (by simp)
    | some v => simp [process_record, upc_eq, dict_update, hv]
  · intro h
    cases hv : proj.conda_url with
    | none => rw [hv] at h; exact absurd h (by simp)
    | some v => simp [process_record, upc_eq, dict_update, hv]
  · intro h
    cases hv : proj.dockerhub_id with
    | none => rw [hv] at h; exact absurd h (by simp)
    | some v => simp [process_record, upc_eq, dict_update, hv]
  · intro h
    cases hv : proj.dockerhub_url with
    | none => rw [hv] at h; exact absurd h (by simp)
    | some v => simp [process_record, upc_eq, dict_update, hv]
  · intro h
    cases hv : proj.star_count with
    | none => rw [hv] at h; exact absurd h (by simp)
    | some v => simp [process_record, upc_eq, dict_update, hv]
  · intro h
    cases hv : proj.fork_count with
    | none => rw [hv] at h; exact absurd h (by simp)
    | some v => simp [process_record, upc_eq, dict_update, hv]
  · intro h
    cases hv : proj.contributor_count with
    | none => rw [hv] at h; exact absurd h (by simp)
    | some v => simp [process_record, upc_eq, dict_update, hv]
  · intro h
    cases hv : proj.open_issue_count with
    | none => rw [hv] at h; exact absurd h (by simp)
    | some v => simp [process_record, upc_eq, dict_update, hv]
  · intro h
    cases hv : proj.sourcerank with
    | none => rw [hv] at h; exact absurd h (by simp)
    | some v => simp [process_record, upc_eq, dict_update, hv]
  · intro h
    cases hv : proj.sourcerank_placing with
    | none => rw [hv] at h; exact absurd h (by simp)
    | some v => simp [process_record, upc_eq, dict_update, hv]
  · intro h
    cases hv : proj.created_at with
    | none => rw [hv] at h; exact absurd h (by simp)
    | some v => simp [process_record, upc_eq, dict_update, hv]
  · intro h
    cases hv : proj.updated_at with
    | none => rw [hv] at h; exact absurd h (by simp)
    | some v => simp [process_record, upc_eq, dict_update, hv]
  · intro h
    cases hv : proj.show_flag with
    | none => rw [hv] at h; exact absurd h (by simp)
    | some v => simp [process_record, upc_eq, dict_update, hv]
  · intro ht hin
    cases hc : proj.category with
    | none => rw [hc] at ht; exact absurd ht (by simp [tStr])
    | some s =>
      have hs : s ≠ "" := by simpa [tStr, hc] using ht
      rw [hc] at hin
      simp only [Option.getD_some] at hin
      simp [process_record, upc_eq, dict_update, hc, tStr, hs, hin]
  · intro ht hin
    cases hc : proj.category with
    | none => rw [hc] at ht; exact absurd ht (by simp [tStr])
    | some s =>
      have hs : s ≠ "" := by simpa [tStr, hc] using ht
      rw [hc] at hin
      simp only [Option.getD_some] at hin
      simp [process_record, upc_eq, dict_update, hc, tStr, hs, hin]

/-- C6 (witness): a catalog entry with an explicit name and a configured
category keeps both through processing. -/
theorem claim_C6_witness :
    bogusCat.name.isSome ∧ tStr bogusCat.category ∧
    bogusCat.category.getD "" ∈ ["bogus", DEFAULT_OTHERS_CATEGORY_ID] ∧
    (process_record id 0 (prepare_configuration {})
        ["bogus", DEFAULT_OTHERS_CATEGORY_ID] bogusCat).name = bogusCat.name ∧
    (process_record id 0 (prepare_configuration {})
        ["bogus", DEFAULT_OTHERS_CATEGORY_ID] bogusCat).category = bogusCat.category :=
  ⟨by decide, by decide, by decide,
   (claim_C6_amended id 0 (prepare_configuration {})
     ["bogus", DEFAULT_OTHERS_CATEGORY_ID] bogusCat).1 (by decide),
   ((claim_C6_amended id 0 (prepare_configuration {})
     ["bogus", DEFAULT_OTHERS_CATEGORY_ID] bogusCat).2.2.2.2.2.2.2.2.2.2.2.2.2.2.2.2.2.2.2.2.2.2.2.1
     (by decide) (by decide))⟩

/-- C6 (counterexample): a catalog entry that explicitly supplies the
category "bogus", processed against a configuration that does not list it,
comes out with category "others" — an explicitly supplied field overwritten
during processing, contradicting the claim that every explicitly supplied
field keeps exactly its supplied value. -/
theorem claim_C6_counterexample :
    (process_record id 0 (prepare_configuration {})
        ["tools", DEFAULT_OTHERS_CATEGORY_ID] bogusCat).category
      = some DEFAULT_OTHERS_CATEGORY_ID ∧
    bogusCat.category = some "bogus" ∧
    some DEFAULT_OTHERS_CATEGORY_ID ≠ bogusCat.category :=
  ⟨by decide, by decide, by decide⟩
